import Mathlib

set_option maxRecDepth 8000

/-!
Verification of the OR-link connection engine (connection_or.c, connection.c)
against its natural-language specification.  The C data structures and
functions are shallowly embedded: bytes are natural numbers below 256,
buffers and wire images are lists of bytes, and the mutable C state is
passed explicitly.  Machine integers are modelled as `Nat`/`Int` with
explicit reductions modulo 2^w where the code can overflow.
-/

/-! ## Cell codec (connection_or.c: cell_pack, cell_unpack,
    var_cell_pack_header, connection_or_process_cells_from_inbuf) -/

/-- Modelled from the spec: the header `or.h` defining this constant is not
part of the sources; spec sections 3 and 6 fix the fixed-cell payload at
509 bytes for link protocols up to 3. -/
def CELL_PAYLOAD_SIZE : Nat := 509

/-- Modelled from the spec: the header `or.h` defining this constant is not
part of the sources; spec section 6 lays a fixed cell out as
circ_id(2) ++ command(1) ++ payload(509), 512 bytes on the wire. -/
def CELL_NETWORK_SIZE : Nat := 512

/-- Host-order `cell_t`: a 16-bit circuit id (`circid_t`), an 8-bit command
and the fixed-size payload array. -/
structure Cell where
  circ_id : Nat
  command : Nat
  payload : List Nat
deriving DecidableEq

/-- Well-formedness of a host-order cell: the fields fit their C types and
the payload array has its declared size. -/
def Cell.wf (c : Cell) : Prop :=
  c.circ_id < 65536 ∧ c.command < 256 ∧
  c.payload.length = CELL_PAYLOAD_SIZE ∧ ∀ b ∈ c.payload, b < 256

instance (c : Cell) : Decidable c.wf := by
  unfold Cell.wf; infer_instance

/-- `cell_pack`: `set_uint16(dest, htons(src->circ_id))` writes the circuit id
big-endian, byte 2 is the command, and `memcpy` places the payload at
offset 3. -/
def cell_pack (c : Cell) : List Nat :=
  c.circ_id % 65536 / 256 :: c.circ_id % 256 :: c.command % 256 :: c.payload

/-- `cell_unpack`: `ntohs(get_uint16(src))` reads the big-endian circuit id,
byte 2 is the command, and `memcpy` takes `CELL_PAYLOAD_SIZE` bytes from
offset 3. -/
def cell_unpack (src : List Nat) : Cell :=
  { circ_id := src.headD 0 * 256 + (src.tail.headD 0)
  , command := src.getD 2 0
  , payload := (src.drop 3).take CELL_PAYLOAD_SIZE }

/-- The fixed-cell branch of `connection_or_process_cells_from_inbuf`: if
fewer than `CELL_NETWORK_SIZE` bytes are buffered, wait; otherwise fetch
exactly `CELL_NETWORK_SIZE` bytes and unpack them. -/
def fetch_fixed_cell (inbuf : List Nat) : Option (Cell × List Nat) :=
  if inbuf.length < CELL_NETWORK_SIZE then none
  else some (cell_unpack (inbuf.take CELL_NETWORK_SIZE), inbuf.drop CELL_NETWORK_SIZE)

/-- A concrete well-formed cell used to instantiate the cell-codec claims. -/
def cellW : Cell := { circ_id := 770, command := 3, payload := List.replicate 509 0 }

theorem cellW_wf : cellW.wf := by
  refine ⟨by decide, by decide, by simp [cellW, CELL_PAYLOAD_SIZE], ?_⟩
  intro b hb
  simp only [cellW, List.mem_replicate] at hb
  omega

/-- C1 counterexample: packing a (well-formed) fixed cell yields 512 bytes,
not 514 as claimed; the two-byte circuit id leaves 509 payload bytes. -/
theorem cell_pack_not_514 :
    cellW.wf ∧ (cell_pack cellW).length ≠ 514 := by
  refine ⟨cellW_wf, ?_⟩
  simp [cell_pack, cellW]

/-- C1 (amended): for the 2-byte circ-id framing of link protocols up to 3,
`cell_pack` produces exactly `CELL_NETWORK_SIZE = 512` on-wire bytes, laid
out as the big-endian 2-byte circ_id, the 1-byte command, and the payload
filling the remaining bytes; and the read path dequeues fixed cells in
units of that same size. -/
theorem cell_pack_network_size (c : Cell) (h : c.wf) :
    (cell_pack c).length = CELL_NETWORK_SIZE ∧
    (cell_pack c).take 2 = [c.circ_id / 256, c.circ_id % 256] ∧
    (cell_pack c).getD 2 0 = c.command ∧
    (cell_pack c).drop 3 = c.payload ∧
    ∀ buf cell rest, fetch_fixed_cell buf = some (cell, rest) →
      buf.length = CELL_NETWORK_SIZE + rest.length := by
  obtain ⟨h1, h2, h3, _⟩ := h
  have h3' : c.payload.length = 509 := by simpa [CELL_PAYLOAD_SIZE] using h3
  have hm : c.circ_id % 65536 = c.circ_id := Nat.mod_eq_of_lt h1
  have hc : c.command % 256 = c.command := Nat.mod_eq_of_lt h2
  refine ⟨?_, ?_, ?_, ?_, ?_⟩
  · simp [cell_pack, CELL_NETWORK_SIZE, h3']
  · simp [cell_pack, hm]
  · simp [cell_pack, List.getD, hc]
  · simp [cell_pack]
  · intro buf cell rest hfetch
    unfold fetch_fixed_cell at hfetch
    split at hfetch
    · exact absurd hfetch (by simp)
    · rename_i hlen
      have hrest : rest = buf.drop CELL_NETWORK_SIZE := by
        have := congrArg (Option.map Prod.snd) hfetch
        simpa using this.symm
      subst hrest
      simp only [List.length_drop]
      omega

/-- Witness for the amended C1 theorem at a concrete well-formed cell. -/
theorem cell_pack_network_size_witness :
    (cell_pack cellW).length = CELL_NETWORK_SIZE :=
  (cell_pack_network_size cellW cellW_wf).1

/-- C2: unpacking the packed form of any well-formed fixed cell returns the
cell itself, in circ_id, command and payload. -/
theorem cell_unpack_pack (c : Cell) (h : c.wf) :
    cell_unpack (cell_pack c) = c := by
  obtain ⟨h1, h2, h3, _⟩ := h
  have h3' : c.payload.length = 509 := by simpa [CELL_PAYLOAD_SIZE] using h3
  have hm : c.circ_id % 65536 = c.circ_id := Nat.mod_eq_of_lt h1
  have hc : c.command % 256 = c.command := Nat.mod_eq_of_lt h2
  unfold cell_unpack cell_pack
  cases c with
  | mk circ_id command payload =>
    simp only at h3' hm hc ⊢
    simp only [Cell.mk.injEq, hm, hc]
    refine ⟨?_, ?_, ?_⟩
    · simp only [List.headD, List.tail]
      omega
    · simp [List.getD]
    · simp only [List.drop]
      exact List.take_of_length_le (by simp [h3', CELL_PAYLOAD_SIZE])

/-- Witness for C2 at the concrete well-formed cell. -/
theorem cell_unpack_pack_witness : cell_unpack (cell_pack cellW) = cellW :=
  cell_unpack_pack cellW cellW_wf

/-! ## Token-bucket refill (connection.c: connection_bucket_refill_helper) -/

/-- `connection_bucket_refill_helper`: refill `bucket` toward `burst` by
`rate` bytes per second over `milliseconds_elapsed` ms.  The C computes the
increment in `int64_t` (`rate * ms / 1000`, truncated division) and caps at
`burst`, with a defensive re-cap after the addition. -/
def connection_bucket_refill_helper (bucket rate burst milliseconds_elapsed : Int) : Int :=
  if bucket < burst ∧ 0 < milliseconds_elapsed then
    let incr := Int.tdiv (rate * milliseconds_elapsed) 1000
    if burst - bucket < incr then burst
    else
      let b := bucket + incr
      if burst < b ∨ b < bucket then burst else b
  else bucket

/-- C10: a single refill step with nonnegative rate, burst and elapsed time
never decreases the bucket, never raises a bucket that was at or below
burst above burst, and leaves a bucket already above burst unchanged. -/
theorem connection_bucket_refill_helper_props
    (bucket rate burst milliseconds_elapsed : Int)
    (hr : 0 ≤ rate) (hb : 0 ≤ burst) (hm : 0 ≤ milliseconds_elapsed) :
    bucket ≤ connection_bucket_refill_helper bucket rate burst milliseconds_elapsed ∧
    (bucket ≤ burst →
      connection_bucket_refill_helper bucket rate burst milliseconds_elapsed ≤ burst) ∧
    (burst < bucket →
      connection_bucket_refill_helper bucket rate burst milliseconds_elapsed = bucket) := by
  have hincr : 0 ≤ Int.tdiv (rate * milliseconds_elapsed) 1000 :=
    Int.tdiv_nonneg (mul_nonneg hr hm) (by norm_num)
  unfold connection_bucket_refill_helper
  split
  · rename_i hcond
    obtain ⟨hlt, -⟩ := hcond
    generalize hg : Int.tdiv (rate * milliseconds_elapsed) 1000 = incr at hincr
    simp only [hg]
    split
    · omega
    · split <;> omega
  · omega

/-- Witness for C10 at concrete values: bucket 100 refilled at 1000 B/s for
100 ms toward burst 150. -/
theorem connection_bucket_refill_helper_props_witness :
    (100 : Int) ≤ connection_bucket_refill_helper 100 1000 150 100 ∧
    ((100 : Int) ≤ 150 →
      connection_bucket_refill_helper 100 1000 150 100 ≤ 150) := by
  have h := connection_bucket_refill_helper_props 100 1000 150 100
    (by norm_num) (by norm_num) (by norm_num)
  exact ⟨h.1, fun _ => h.2.1 (by norm_num)⟩

/-! ## Connection closure (connection.c: _connection_mark_for_close) -/

/-- The closure-relevant fields of `connection_t`: `marked_for_close` holds
the source line of the first marking call (0 when unmarked, the C
initializes it to 0), `marked_for_close_file` the file (coded as a number
here), and `timestamp_lastwritten` is reset on marking. -/
structure MfcConn where
  marked_for_close : Nat
  marked_for_close_file : Nat
  timestamp_lastwritten : Int
deriving DecidableEq

/-- The world visible to `_connection_mark_for_close`: the connection, the
number of teardowns queued for it on the closeable list, and the number of
bug warnings logged. -/
structure MfcWorld where
  conn : MfcConn
  teardowns_queued : Nat
  bug_warnings : Nat
deriving DecidableEq

/-- `_connection_mark_for_close`: a second call on an already-marked
connection logs a bug warning and returns; the first call records line and
file, adds the connection to the closeable list and resets
`timestamp_lastwritten`. -/
def connection_mark_for_close (w : MfcWorld) (now : Int) (line file : Nat) : MfcWorld :=
  if w.conn.marked_for_close ≠ 0 then
    { w with bug_warnings := w.bug_warnings + 1 }
  else
    { conn := { marked_for_close := line, marked_for_close_file := file,
                timestamp_lastwritten := now }
    , teardowns_queued := w.teardowns_queued + 1
    , bug_warnings := w.bug_warnings }

/-- C8: marking is idempotent with monotonic effect.  On an unmarked
connection the first call records the mark and queues exactly one
teardown; the second call logs one bug warning and changes nothing else
(the mark, file and teardown count of the first call are preserved);
and once marked, a connection is never unmarked by further calls. -/
theorem connection_mark_for_close_idempotent
    (w : MfcWorld) (hw : w.conn.marked_for_close = 0)
    (now1 now2 : Int) (line1 line2 file1 file2 : Nat) (hl1 : line1 ≠ 0) :
    (connection_mark_for_close w now1 line1 file1).conn.marked_for_close = line1 ∧
    (connection_mark_for_close w now1 line1 file1).conn.marked_for_close_file = file1 ∧
    (connection_mark_for_close w now1 line1 file1).teardowns_queued =
      w.teardowns_queued + 1 ∧
    connection_mark_for_close (connection_mark_for_close w now1 line1 file1)
        now2 line2 file2 =
      { connection_mark_for_close w now1 line1 file1 with
        bug_warnings := (connection_mark_for_close w now1 line1 file1).bug_warnings + 1 } ∧
    (∀ w' : MfcWorld, w'.conn.marked_for_close ≠ 0 →
      (connection_mark_for_close w' now2 line2 file2).conn = w'.conn ∧
      (connection_mark_for_close w' now2 line2 file2).teardowns_queued =
        w'.teardowns_queued) := by
  refine ⟨?_, ?_, ?_, ?_, ?_⟩
  · simp [connection_mark_for_close, hw]
  · simp [connection_mark_for_close, hw]
  · simp [connection_mark_for_close, hw]
  · simp [connection_mark_for_close, hw, hl1]
  · intro w' hw'
    simp [connection_mark_for_close, hw']

/-- Witness for C8 at a concrete fresh connection. -/
theorem connection_mark_for_close_idempotent_witness :
    (connection_mark_for_close ⟨⟨0, 0, 0⟩, 0, 0⟩ 5 17 3).conn.marked_for_close = 17 ∧
    connection_mark_for_close (connection_mark_for_close ⟨⟨0, 0, 0⟩, 0, 0⟩ 5 17 3) 6 20 4 =
      { connection_mark_for_close ⟨⟨0, 0, 0⟩, 0, 0⟩ 5 17 3 with
        bug_warnings :=
          (connection_mark_for_close ⟨⟨0, 0, 0⟩, 0, 0⟩ 5 17 3).bug_warnings + 1 } := by
  have h := connection_mark_for_close_idempotent ⟨⟨0, 0, 0⟩, 0, 0⟩ rfl 5 6 17 20 3 4
    (by decide)
  exact ⟨h.1, h.2.2.2.1⟩

/-! ## Per-link token-bucket sizing (connection_or.c:
    connection_or_digest_is_known_relay,
    connection_or_update_token_buckets_helper) -/

/-- `connection_or_digest_is_known_relay`: true when the identity is in the
current consensus or a descriptor for it is cached.  The two lookups live
in the router-list collaborator; their results are taken as inputs. -/
def connection_or_digest_is_known_relay (in_consensus has_descriptor : Bool) : Bool :=
  if in_consensus then true
  else if has_descriptor then true
  else false

/-- Modelled from the spec: `networkstatus_get_param` lives in
networkstatus.c, which is not among the sources.  Per the spec it yields
the consensus parameter clamped to the given range when the consensus
defines it, and the default otherwise. -/
def networkstatus_get_param (consensus_value : Option Int)
    (default_val min_val max_val : Int) : Int :=
  match consensus_value with
  | none => default_val
  | some v => max min_val (min v max_val)

/-- The options fields read by the token-bucket sizing code. -/
structure BwOptions where
  BandwidthRate : Int
  BandwidthBurst : Int
  PerConnBWRate : Int
  PerConnBWBurst : Int
deriving DecidableEq

/-- The per-link rate-limiting fields of `or_connection_t`. -/
structure BwConn where
  bandwidthrate : Int
  bandwidthburst : Int
  read_bucket : Int
  write_bucket : Int
deriving DecidableEq

/-- `connection_or_update_token_buckets_helper` (non-bufferevent path): a
recognized relay gets the global per-node rate/burst; otherwise the local
per-connection option wins when nonzero, else the consensus parameter
(clamped to [1, INT32_MAX], defaulting to the global value).  With `reset`
the buckets are set full; otherwise they are only clipped down to the new
burst. -/
def connection_or_update_token_buckets_helper
    (known_relay reset : Bool) (options : BwOptions)
    (consensus_rate consensus_burst : Option Int) (conn : BwConn) : BwConn :=
  let rate := if known_relay then options.BandwidthRate
    else if options.PerConnBWRate ≠ 0 then options.PerConnBWRate
    else networkstatus_get_param consensus_rate options.BandwidthRate 1 2147483647
  let burst := if known_relay then options.BandwidthBurst
    else if options.PerConnBWBurst ≠ 0 then options.PerConnBWBurst
    else networkstatus_get_param consensus_burst options.BandwidthBurst 1 2147483647
  let conn := { conn with bandwidthrate := rate, bandwidthburst := burst }
  if reset then { conn with read_bucket := burst, write_bucket := burst }
  else
    { conn with
      read_bucket := if burst < conn.read_bucket then burst else conn.read_bucket
      write_bucket := if burst < conn.write_bucket then burst else conn.write_bucket }

/-- C7 counterexample: for an unknown peer with a configured per-connection
rate of 100 and a consensus fallback of 50, the code sizes the link at the
configured 100 — not at `min(configured, consensus) = 50` as claimed. -/
theorem token_bucket_sizing_not_min :
    (connection_or_update_token_buckets_helper false true
        ⟨1000, 2000, 100, 200⟩ (some 50) (some 80) ⟨0, 0, 0, 0⟩).bandwidthrate = 100 ∧
    (100 : Int) ≠ min 100 50 := by
  constructor
  · rfl
  · decide

/-- C7 (amended): when per-link token buckets are sized, a known relay gets
the global per-node BandwidthRate/BandwidthBurst; otherwise the configured
per-connection limit applies when it is nonzero, and the consensus
parameter (clamped to [1, 2^31-1], defaulting to the global value when
absent) applies only as a fallback.  A reset fills both buckets to the new
burst; without reset each bucket is clipped to `min(old value, burst)`. -/
theorem token_bucket_sizing (known_relay reset : Bool) (options : BwOptions)
    (consensus_rate consensus_burst : Option Int) (conn : BwConn) :
    (known_relay = true →
      (connection_or_update_token_buckets_helper known_relay reset options
        consensus_rate consensus_burst conn).bandwidthrate = options.BandwidthRate ∧
      (connection_or_update_token_buckets_helper known_relay reset options
        consensus_rate consensus_burst conn).bandwidthburst = options.BandwidthBurst) ∧
    (known_relay = false → options.PerConnBWRate ≠ 0 →
      (connection_or_update_token_buckets_helper known_relay reset options
        consensus_rate consensus_burst conn).bandwidthrate = options.PerConnBWRate) ∧
    (known_relay = false → options.PerConnBWRate = 0 → consensus_rate = none →
      (connection_or_update_token_buckets_helper known_relay reset options
        consensus_rate consensus_burst conn).bandwidthrate = options.BandwidthRate) ∧
    (∀ v, known_relay = false → options.PerConnBWRate = 0 → consensus_rate = some v →
      (connection_or_update_token_buckets_helper known_relay reset options
        consensus_rate consensus_burst conn).bandwidthrate =
        max 1 (min v 2147483647)) ∧
    (known_relay = false → options.PerConnBWBurst ≠ 0 →
      (connection_or_update_token_buckets_helper known_relay reset options
        consensus_rate consensus_burst conn).bandwidthburst =
        options.PerConnBWBurst) ∧
    (known_relay = false → options.PerConnBWBurst = 0 → consensus_burst = none →
      (connection_or_update_token_buckets_helper known_relay reset options
        consensus_rate consensus_burst conn).bandwidthburst =
        options.BandwidthBurst) ∧
    (∀ v, known_relay = false → options.PerConnBWBurst = 0 → consensus_burst = some v →
      (connection_or_update_token_buckets_helper known_relay reset options
        consensus_rate consensus_burst conn).bandwidthburst =
        max 1 (min v 2147483647)) ∧
    (reset = true →
      (connection_or_update_token_buckets_helper known_relay reset options
        consensus_rate consensus_burst conn).read_bucket =
      (connection_or_update_token_buckets_helper known_relay reset options
        consensus_rate consensus_burst conn).bandwidthburst ∧
      (connection_or_update_token_buckets_helper known_relay reset options
        consensus_rate consensus_burst conn).write_bucket =
      (connection_or_update_token_buckets_helper known_relay reset options
        consensus_rate consensus_burst conn).bandwidthburst) ∧
    (reset = false →
      (connection_or_update_token_buckets_helper known_relay reset options
        consensus_rate consensus_burst conn).read_bucket =
        min conn.read_bucket
          (connection_or_update_token_buckets_helper known_relay reset options
            consensus_rate consensus_burst conn).bandwidthburst ∧
      (connection_or_update_token_buckets_helper known_relay reset options
        consensus_rate consensus_burst conn).write_bucket =
        min conn.write_bucket
          (connection_or_update_token_buckets_helper known_relay reset options
            consensus_rate consensus_burst conn).bandwidthburst) := by
  refine ⟨?_, ?_, ?_, ?_, ?_, ?_, ?_, ?_, ?_⟩
  · intro hk
    subst hk
    simp only [connection_or_update_token_buckets_helper, if_true]
    split <;> simp
  · intro hk hnz
    subst hk
    simp only [connection_or_update_token_buckets_helper, Bool.false_eq_true,
      if_false, if_pos hnz]
    split <;> simp
  · intro hk hz hc
    subst hk hc
    simp only [connection_or_update_token_buckets_helper, Bool.false_eq_true,
      if_false, hz, ne_eq, not_true_eq_false, networkstatus_get_param]
    split <;> simp
  · intro v hk hz hc
    subst hk hc
    simp only [connection_or_update_token_buckets_helper, Bool.false_eq_true,
      if_false, hz, ne_eq, not_true_eq_false, networkstatus_get_param]
    split <;> simp
  · intro hk hnz
    subst hk
    simp only [connection_or_update_token_buckets_helper, Bool.false_eq_true,
      if_false, if_pos hnz]
    split <;> simp
  · intro hk hz hc
    subst hk hc
    simp only [connection_or_update_token_buckets_helper, Bool.false_eq_true,
      if_false, hz, ne_eq, not_true_eq_false, networkstatus_get_param]
    split <;> simp
  · intro v hk hz hc
    subst hk hc
    simp only [connection_or_update_token_buckets_helper, Bool.false_eq_true,
      if_false, hz, ne_eq, not_true_eq_false, networkstatus_get_param]
    split <;> simp
  · intro hr
    subst hr
    simp [connection_or_update_token_buckets_helper]
  · intro hr
    subst hr
    simp only [connection_or_update_token_buckets_helper, Bool.false_eq_true,
      if_false]
    constructor <;> · dsimp only; split <;> rename_i hlt <;> omega

/-- Witness for the amended C7 theorem at concrete inputs: unknown relay,
zero per-connection config, consensus parameters 50 (rate) and 80
(burst). -/
theorem token_bucket_sizing_witness :
    (connection_or_update_token_buckets_helper false true
        ⟨1000, 2000, 0, 0⟩ (some 50) (some 80) ⟨0, 0, 7, 9⟩).bandwidthrate =
      max 1 (min 50 2147483647) ∧
    (connection_or_update_token_buckets_helper false true
        ⟨1000, 2000, 0, 0⟩ (some 50) (some 80) ⟨0, 0, 7, 9⟩).bandwidthburst =
      max 1 (min 80 2147483647) := by
  have h := token_bucket_sizing false true ⟨1000, 2000, 0, 0⟩ (some 50) (some 80)
    ⟨0, 0, 7, 9⟩
  exact ⟨h.2.2.2.1 50 rfl rfl rfl, h.2.2.2.2.2.2.1 80 rfl rfl rfl⟩

/-! ## Link selection for circuit extension (connection_or.c:
    connection_or_is_better, connection_or_get_for_extend) -/

/-- The fields of `or_connection_t` read by link selection and badness
marking.  `cid` stands in for the object's address (pointer identity);
`real_addr` abstracts the peer address actually dialed. -/
structure OrConn where
  cid : Nat
  marked_for_close : Bool
  is_connection_with_client : Bool
  state_open : Bool
  is_bad_for_new_circs : Bool
  is_canonical : Bool
  link_proto : Nat
  real_addr : Nat
  n_circuits : Nat
  timestamp_created : Int
deriving DecidableEq

/-- `NEW_CONN_GRACE_PERIOD`: 15 minutes. -/
def NEW_CONN_GRACE_PERIOD : Int := 15 * 60

/-- `connection_or_is_better`: canonical beats non-canonical; then prefer
having circuits or being newer, except that a circuitless connection still
inside its grace period is forgiven when requested. -/
def connection_or_is_better (now : Int) (a b : OrConn)
    (forgive_new_connections : Bool) : Bool :=
  if b.is_canonical ∧ ¬ a.is_canonical then false
  else
    let newer := b.timestamp_created < a.timestamp_created
    if (¬ b.is_canonical ∧ a.is_canonical) ∨
       (b.n_circuits ≠ 0 ∧ a.n_circuits ≠ 0 ∧ newer) ∨
       (b.n_circuits = 0 ∧ a.n_circuits = 0 ∧ newer) then true
    else if b.n_circuits = 0 ∧ a.n_circuits ≠ 0 then
      if forgive_new_connections ∧ now < b.timestamp_created + NEW_CONN_GRACE_PERIOD
      then false
      else true
    else false

/-- How the selection loop of `connection_or_get_for_extend` disposes of one
chain member: skipped silently (marked, client, or non-open at the wrong
address), counted as in-progress (non-open at the target address), counted
as too old (bad for new circuits), counted as non-canonical (recent link
protocol at the wrong address), or kept as a candidate. -/
inductive ExtendClass
  | skipSilent
  | skipInprogressGoodaddr
  | skipOld
  | skipNoncanonical
  | keep
deriving DecidableEq

/-- The skip cascade of the `connection_or_get_for_extend` loop, in source
order. -/
def extendClassify (target_addr : Nat) (conn : OrConn) : ExtendClass :=
  if conn.marked_for_close then .skipSilent
  else if conn.is_connection_with_client then .skipSilent
  else if ¬ conn.state_open then
    if conn.real_addr = target_addr then .skipInprogressGoodaddr else .skipSilent
  else if conn.is_bad_for_new_circs then .skipOld
  else if ¬ conn.is_canonical ∧ 2 ≤ conn.link_proto ∧ conn.real_addr ≠ target_addr then
    .skipNoncanonical
  else .keep

/-- Accumulator of the selection loop: the three counters and the best
candidate so far. -/
structure ExtendAcc where
  n_inprogress_goodaddr : Nat
  n_old : Nat
  n_noncanonical : Nat
  best : Option OrConn
deriving DecidableEq

/-- One iteration of the selection loop. -/
def extendStep (now : Int) (target_addr : Nat) (acc : ExtendAcc) (conn : OrConn) :
    ExtendAcc :=
  match extendClassify target_addr conn with
  | .skipSilent => acc
  | .skipInprogressGoodaddr =>
      { acc with n_inprogress_goodaddr := acc.n_inprogress_goodaddr + 1 }
  | .skipOld => { acc with n_old := acc.n_old + 1 }
  | .skipNoncanonical => { acc with n_noncanonical := acc.n_noncanonical + 1 }
  | .keep =>
      match acc.best with
      | none => { acc with best := some conn }
      | some b =>
          if connection_or_is_better now conn b false then { acc with best := some conn }
          else acc

/-- The outcomes reported by `connection_or_get_for_extend` through
`msg_out`. -/
inductive ExtendMsg
  | usingExisting
  | inProgressWaiting
  | tooOldLaunchNew
  | notConnectedLaunchNew
deriving DecidableEq

/-- `connection_or_get_for_extend` on the chain for one identity: run the
loop, then report the best candidate, or the message and launch decision
chosen by the final if-cascade (in-progress first, then too
old or non-canonical, then not connected). -/
def connection_or_get_for_extend (now : Int) (chain : List OrConn)
    (target_addr : Nat) : Option OrConn × ExtendMsg × Bool :=
  let acc := chain.foldl (extendStep now target_addr) ⟨0, 0, 0, none⟩
  match acc.best with
  | some b => (some b, .usingExisting, false)
  | none =>
    if acc.n_inprogress_goodaddr ≠ 0 then (none, .inProgressWaiting, false)
    else if acc.n_old ≠ 0 ∨ acc.n_noncanonical ≠ 0 then (none, .tooOldLaunchNew, true)
    else (none, .notConnectedLaunchNew, true)

/-- A returned candidate passed every policy filter. -/
def extendEligible (c : OrConn) : Prop :=
  c.marked_for_close = false ∧ c.is_connection_with_client = false ∧
  c.state_open = true ∧ c.is_bad_for_new_circs = false

theorem extendClassify_keep_eligible (target_addr : Nat) (c : OrConn)
    (h : extendClassify target_addr c = .keep) : extendEligible c := by
  unfold extendClassify at h
  unfold extendEligible
  split at h
  · exact absurd h (by decide)
  · split at h
    · exact absurd h (by decide)
    · split at h
      · split at h <;> exact absurd h (by decide)
      · split at h
        · exact absurd h (by decide)
        · split at h
          · exact absurd h (by decide)
          · rename_i h1 h2 h3 h4 h5
            refine ⟨?_, ?_, ?_, ?_⟩ <;> simp_all

theorem extendStep_best_eligible (now : Int) (target_addr : Nat)
    (acc : ExtendAcc) (conn : OrConn)
    (hacc : ∀ b, acc.best = some b → extendEligible b) :
    ∀ b, (extendStep now target_addr acc conn).best = some b → extendEligible b := by
  intro b hb
  rcases hcl : extendClassify target_addr conn <;>
    simp only [extendStep, hcl] at hb
  · exact hacc b hb
  · exact hacc b hb
  · exact hacc b hb
  · exact hacc b hb
  · rcases hbest : acc.best with - | b0 <;> simp only [hbest] at hb
    · injection hb with hb
      subst hb
      exact extendClassify_keep_eligible target_addr conn hcl
    · split at hb
      · simp only at hb
        injection hb with hb
        subst hb
        exact extendClassify_keep_eligible target_addr conn hcl
      · exact hacc b hb

theorem extendFold_best_eligible (now : Int) (target_addr : Nat)
    (chain : List OrConn) (acc : ExtendAcc)
    (hacc : ∀ b, acc.best = some b → extendEligible b) :
    ∀ b, (chain.foldl (extendStep now target_addr) acc).best = some b →
      extendEligible b := by
  induction chain generalizing acc with
  | nil => exact hacc
  | cons c cs ih =>
    exact ih (extendStep now target_addr acc c)
      (extendStep_best_eligible now target_addr acc c hacc)

theorem extendStep_counts (now : Int) (target_addr : Nat)
    (acc : ExtendAcc) (conn : OrConn) :
    (extendStep now target_addr acc conn).n_inprogress_goodaddr =
      acc.n_inprogress_goodaddr +
        (if extendClassify target_addr conn = .skipInprogressGoodaddr then 1 else 0) ∧
    (extendStep now target_addr acc conn).n_old =
      acc.n_old + (if extendClassify target_addr conn = .skipOld then 1 else 0) ∧
    (extendStep now target_addr acc conn).n_noncanonical =
      acc.n_noncanonical +
        (if extendClassify target_addr conn = .skipNoncanonical then 1 else 0) := by
  rcases hcl : extendClassify target_addr conn <;>
    simp only [extendStep, hcl]
  · simp
  · simp
  · simp
  · simp
  · rcases hbest : acc.best with - | b0 <;> simp only [hbest]
    · simp
    · split <;> simp

theorem extendFold_counts (now : Int) (target_addr : Nat)
    (chain : List OrConn) (acc : ExtendAcc) :
    (chain.foldl (extendStep now target_addr) acc).n_inprogress_goodaddr =
      acc.n_inprogress_goodaddr +
        chain.countP (fun c => extendClassify target_addr c = .skipInprogressGoodaddr) ∧
    (chain.foldl (extendStep now target_addr) acc).n_old =
      acc.n_old + chain.countP (fun c => extendClassify target_addr c = .skipOld) ∧
    (chain.foldl (extendStep now target_addr) acc).n_noncanonical =
      acc.n_noncanonical +
        chain.countP (fun c => extendClassify target_addr c = .skipNoncanonical) := by
  induction chain generalizing acc with
  | nil => simp
  | cons c cs ih =>
    simp only [List.foldl_cons, List.countP_cons]
    obtain ⟨ih1, ih2, ih3⟩ := ih (extendStep now target_addr acc c)
    obtain ⟨s1, s2, s3⟩ := extendStep_counts now target_addr acc c
    rw [ih1, ih2, ih3, s1, s2, s3]
    refine ⟨?_, ?_, ?_⟩
    · by_cases hp : extendClassify target_addr c = .skipInprogressGoodaddr <;>
        simp [hp] <;> omega
    · by_cases hp : extendClassify target_addr c = .skipOld <;>
        simp [hp] <;> omega
    · by_cases hp : extendClassify target_addr c = .skipNoncanonical <;>
        simp [hp] <;> omega

/-- A chain member counted as "connection in progress": not marked, not a
client connection, non-open, and dialed at the target address. -/
def extendInProgressAt (target_addr : Nat) (c : OrConn) : Prop :=
  c.marked_for_close = false ∧ c.is_connection_with_client = false ∧
  c.state_open = false ∧ c.real_addr = target_addr

/-- A chain member skipped as too old: reached by the loop (not marked, not
a client, open) but flagged bad for new circuits. -/
def extendSkippedOld (c : OrConn) : Prop :=
  c.marked_for_close = false ∧ c.is_connection_with_client = false ∧
  c.state_open = true ∧ c.is_bad_for_new_circs = true

/-- A chain member skipped as non-canonical: open and usable but
non-canonical on a recent link protocol at the wrong address. -/
def extendSkippedNoncanonical (target_addr : Nat) (c : OrConn) : Prop :=
  c.marked_for_close = false ∧ c.is_connection_with_client = false ∧
  c.state_open = true ∧ c.is_bad_for_new_circs = false ∧
  c.is_canonical = false ∧ 2 ≤ c.link_proto ∧ c.real_addr ≠ target_addr

instance (target_addr : Nat) (c : OrConn) :
    Decidable (extendInProgressAt target_addr c) := by
  unfold extendInProgressAt; infer_instance

instance (c : OrConn) : Decidable (extendSkippedOld c) := by
  unfold extendSkippedOld; infer_instance

instance (target_addr : Nat) (c : OrConn) :
    Decidable (extendSkippedNoncanonical target_addr c) := by
  unfold extendSkippedNoncanonical; infer_instance

instance (c : OrConn) : Decidable (extendEligible c) := by
  unfold extendEligible; infer_instance

theorem extendClassify_inprogress_iff (target_addr : Nat) (c : OrConn) :
    extendClassify target_addr c = .skipInprogressGoodaddr ↔
      extendInProgressAt target_addr c := by
  unfold extendClassify extendInProgressAt
  split_ifs <;> simp_all

theorem extendClassify_old_iff (target_addr : Nat) (c : OrConn) :
    extendClassify target_addr c = .skipOld ↔ extendSkippedOld c := by
  unfold extendClassify extendSkippedOld
  split_ifs <;> simp_all

theorem extendClassify_noncanonical_iff (target_addr : Nat) (c : OrConn) :
    extendClassify target_addr c = .skipNoncanonical ↔
      extendSkippedNoncanonical target_addr c := by
  unfold extendClassify extendSkippedNoncanonical
  split_ifs <;> simp_all

/-- C3 (amended): `connection_or_get_for_extend` never returns a link that
is marked for close, looks like a client connection, is non-open, or is
bad for new circuits; and when no link survives, the (message, launch)
result follows the code's priority: first "connecting, wait" (no dial)
when some non-open link matches the target address, then "too old or
non-canonical, dial new" when any link was skipped for those reasons, else
"not connected, dial new". -/
theorem connection_or_get_for_extend_policy (now : Int) (chain : List OrConn)
    (target_addr : Nat) :
    (∀ b, (connection_or_get_for_extend now chain target_addr).1 = some b →
      extendEligible b) ∧
    ((connection_or_get_for_extend now chain target_addr).1 = none →
      ((∃ c ∈ chain, extendInProgressAt target_addr c) →
        connection_or_get_for_extend now chain target_addr =
          (none, .inProgressWaiting, false)) ∧
      (¬ (∃ c ∈ chain, extendInProgressAt target_addr c) →
        (∃ c ∈ chain, extendSkippedOld c ∨ extendSkippedNoncanonical target_addr c) →
        connection_or_get_for_extend now chain target_addr =
          (none, .tooOldLaunchNew, true)) ∧
      (¬ (∃ c ∈ chain, extendInProgressAt target_addr c) →
        ¬ (∃ c ∈ chain, extendSkippedOld c ∨ extendSkippedNoncanonical target_addr c) →
        connection_or_get_for_extend now chain target_addr =
          (none, .notConnectedLaunchNew, true))) := by
  obtain ⟨hc1, hc2, hc3⟩ := extendFold_counts now target_addr chain ⟨0, 0, 0, none⟩
  have hbe := extendFold_best_eligible now target_addr chain ⟨0, 0, 0, none⟩
    (by intro b hb; simp at hb)
  have hc1' : (chain.foldl (extendStep now target_addr)
      ⟨0, 0, 0, none⟩).n_inprogress_goodaddr =
      chain.countP (fun c => extendClassify target_addr c = .skipInprogressGoodaddr) := by
    simpa using hc1
  have hc2' : (chain.foldl (extendStep now target_addr) ⟨0, 0, 0, none⟩).n_old =
      chain.countP (fun c => extendClassify target_addr c = .skipOld) := by
    simpa using hc2
  have hc3' : (chain.foldl (extendStep now target_addr) ⟨0, 0, 0, none⟩).n_noncanonical =
      chain.countP (fun c => extendClassify target_addr c = .skipNoncanonical) := by
    simpa using hc3
  have hin_iff :
      (chain.foldl (extendStep now target_addr) ⟨0, 0, 0, none⟩).n_inprogress_goodaddr ≠ 0
        ↔ ∃ c ∈ chain, extendInProgressAt target_addr c := by
    rw [hc1', ← Nat.pos_iff_ne_zero, List.countP_pos]
    exact exists_congr fun c => and_congr_right fun _ => by
      rw [decide_eq_true_eq, extendClassify_inprogress_iff]
  have hold_iff :
      ((chain.foldl (extendStep now target_addr) ⟨0, 0, 0, none⟩).n_old ≠ 0 ∨
       (chain.foldl (extendStep now target_addr) ⟨0, 0, 0, none⟩).n_noncanonical ≠ 0)
        ↔ ∃ c ∈ chain, extendSkippedOld c ∨ extendSkippedNoncanonical target_addr c := by
    rw [hc2', hc3', ← Nat.pos_iff_ne_zero, ← Nat.pos_iff_ne_zero,
      List.countP_pos, List.countP_pos]
    constructor
    · rintro (⟨c, hmem, hp⟩ | ⟨c, hmem, hp⟩)
      · exact ⟨c, hmem, Or.inl ((extendClassify_old_iff target_addr c).mp
          (by simpa using hp))⟩
      · exact ⟨c, hmem, Or.inr ((extendClassify_noncanonical_iff target_addr c).mp
          (by simpa using hp))⟩
    · rintro ⟨c, hmem, hp | hp⟩
      · exact Or.inl ⟨c, hmem,
          by simp [extendClassify_old_iff target_addr c, hp]⟩
      · exact Or.inr ⟨c, hmem,
          by simp [extendClassify_noncanonical_iff target_addr c, hp]⟩
  constructor
  · intro b hb
    apply hbe
    unfold connection_or_get_for_extend at hb
    rcases hacc : (chain.foldl (extendStep now target_addr) ⟨0, 0, 0, none⟩).best
      with - | b0 <;> simp only [hacc] at hb
    · split_ifs at hb <;> simp at hb
    · exact hb
  · intro hnone
    rcases hacc : (chain.foldl (extendStep now target_addr) ⟨0, 0, 0, none⟩).best
      with - | b0
    · refine ⟨?_, ?_, ?_⟩
      · intro hin
        have hn := hin_iff.mpr hin
        simp only [connection_or_get_for_extend, hacc, if_pos hn]
      · intro hnin hold
        have hn : ¬ ((chain.foldl (extendStep now target_addr)
            ⟨0, 0, 0, none⟩).n_inprogress_goodaddr ≠ 0) := fun h => hnin (hin_iff.mp h)
        have ho := hold_iff.mpr hold
        simp only [connection_or_get_for_extend, hacc, if_neg hn, if_pos ho]
      · intro hnin hnold
        have hn : ¬ ((chain.foldl (extendStep now target_addr)
            ⟨0, 0, 0, none⟩).n_inprogress_goodaddr ≠ 0) := fun h => hnin (hin_iff.mp h)
        have ho : ¬ ((chain.foldl (extendStep now target_addr)
            ⟨0, 0, 0, none⟩).n_old ≠ 0 ∨
            (chain.foldl (extendStep now target_addr)
              ⟨0, 0, 0, none⟩).n_noncanonical ≠ 0) :=
          fun h => hnold (hold_iff.mp h)
        simp only [connection_or_get_for_extend, hacc, if_neg hn, if_neg ho]
    · exfalso
      unfold connection_or_get_for_extend at hnone
      simp [hacc] at hnone

/-- A non-open link at the target address (in progress). -/
def connInprogW : OrConn :=
  { cid := 1, marked_for_close := false, is_connection_with_client := false,
    state_open := false, is_bad_for_new_circs := false, is_canonical := false,
    link_proto := 2, real_addr := 7, n_circuits := 0, timestamp_created := 0 }

/-- An open link flagged bad for new circuits (skipped as too old). -/
def connOldW : OrConn :=
  { cid := 2, marked_for_close := false, is_connection_with_client := false,
    state_open := true, is_bad_for_new_circs := true, is_canonical := false,
    link_proto := 2, real_addr := 7, n_circuits := 0, timestamp_created := 0 }

/-- C3 counterexample: with one in-progress link at the target address and
one link skipped as too old, the code reports "connecting, wait" with no
dial — not "dial new" as the claimed priority (too-old first) requires. -/
theorem get_for_extend_priority_counterexample :
    connection_or_get_for_extend 0 [connInprogW, connOldW] 7 =
      (none, .inProgressWaiting, false) ∧
    connOldW.marked_for_close = false ∧
    connOldW.is_connection_with_client = false ∧
    connOldW.state_open = true ∧
    connOldW.is_bad_for_new_circs = true := by
  refine ⟨?_, rfl, rfl, rfl, rfl⟩
  decide

/-- Witness for the amended C3 theorem: with only the too-old link in the
chain, the code reports "too old or non-canonical, dial new". -/
theorem connection_or_get_for_extend_policy_witness :
    connection_or_get_for_extend 0 [connOldW] 7 = (none, .tooOldLaunchNew, true) := by
  have h := connection_or_get_for_extend_policy 0 [connOldW] 7
  exact (h.2 (by decide)).2.1 (by decide) (by decide)

/-! ## Badness marking (connection_or.c: connection_or_group_set_badness,
    connection_or_set_bad_connections) -/

/-- `TIME_BEFORE_OR_CONN_IS_TOO_OLD`: 7 days in seconds. -/
def TIME_BEFORE_OR_CONN_IS_TOO_OLD : Int := 60 * 60 * 24 * 7

/-- Pass 1 of `connection_or_group_set_badness` on one chain member: skip
marked or already-bad links; mark the rest bad when `force` is set or they
are older than a week. -/
def badnessPass1 (now : Int) (force : Bool) (c : OrConn) : OrConn :=
  if c.marked_for_close ∨ c.is_bad_for_new_circs then c
  else if force ∨ c.timestamp_created + TIME_BEFORE_OR_CONN_IS_TOO_OLD < now then
    { c with is_bad_for_new_circs := true }
  else c

/-- Pass 2 on one chain member: an open, not-marked, not-bad link that is
non-canonical becomes bad as soon as some open canonical link exists in
the chain (`n_canonical ≠ 0`). -/
def badnessPass2 (n_canonical : Nat) (c : OrConn) : OrConn :=
  if c.marked_for_close ∨ c.is_bad_for_new_circs then c
  else if ¬ c.state_open then c
  else if n_canonical ≠ 0 ∧ ¬ c.is_canonical then { c with is_bad_for_new_circs := true }
  else c

/-- The best-candidate selection folded through pass 2: among links that
survive pass 2 unmarked, keep the better one by `connection_or_is_better`
(not forgiving). -/
def badnessPass2Best (now : Int) (n_canonical : Nat)
    (best : Option OrConn) (c : OrConn) : Option OrConn :=
  if c.marked_for_close ∨ c.is_bad_for_new_circs then best
  else if ¬ c.state_open then best
  else if n_canonical ≠ 0 ∧ ¬ c.is_canonical then best
  else
    match best with
    | none => some c
    | some b => if connection_or_is_better now c b false then some c else best

/-- Pass 3 on one chain member: with `best` fixed, an open, not-marked,
not-bad link other than `best` (pointer identity, modelled by `cid`) that
`best` beats even forgivingly becomes bad when `best` is canonical, or
when it shares `best`'s address. -/
def badnessPass3 (now : Int) (best : OrConn) (c : OrConn) : OrConn :=
  if c.marked_for_close ∨ c.is_bad_for_new_circs ∨ ¬ c.state_open then c
  else if c.cid ≠ best.cid ∧ connection_or_is_better now best c true then
    if best.is_canonical then { c with is_bad_for_new_circs := true }
    else if c.real_addr = best.real_addr then { c with is_bad_for_new_circs := true }
    else c
  else c

/-- The chain after pass 1. -/
def badnessChain1 (now : Int) (force : Bool) (chain : List OrConn) : List OrConn :=
  chain.map (badnessPass1 now force)

/-- `n_canonical` as tallied by pass 1: links the loop reaches (not marked,
not bad after aging) that are open and canonical. -/
def badnessNCanonical (now : Int) (force : Bool) (chain : List OrConn) : Nat :=
  (badnessChain1 now force chain).countP (fun c =>
    ¬ c.marked_for_close ∧ ¬ c.is_bad_for_new_circs ∧ c.state_open ∧ c.is_canonical)

/-- The best survivor found by pass 2. -/
def badnessBest (now : Int) (force : Bool) (chain : List OrConn) : Option OrConn :=
  (badnessChain1 now force chain).foldl
    (badnessPass2Best now (badnessNCanonical now force chain)) none

/-- `connection_or_group_set_badness`: pass 1 ages the chain and (with the
same skip rule as the C loop) the open canonical survivors are counted;
pass 2 retires open non-canonical links when a canonical one exists and
selects the best survivor; pass 3 retires everything the best connection
beats. -/
def connection_or_group_set_badness (now : Int) (force : Bool)
    (chain : List OrConn) : List OrConn :=
  match badnessBest now force chain with
  | none => (badnessChain1 now force chain).map
      (badnessPass2 (badnessNCanonical now force chain))
  | some b => ((badnessChain1 now force chain).map
      (badnessPass2 (badnessNCanonical now force chain))).map (badnessPass3 now b)

/-- `connection_or_set_bad_connections` restricted to one identity: apply
the group pass to the chain stored for that digest. -/
def connection_or_set_bad_connections (now : Int) (force : Bool)
    (chains : Nat → List OrConn) (digest : Nat) : Nat → List OrConn :=
  fun d => if d = digest then connection_or_group_set_badness now force (chains d)
           else chains d

theorem badnessPass1_fields (now : Int) (force : Bool) (c : OrConn) :
    (badnessPass1 now force c).marked_for_close = c.marked_for_close ∧
    (badnessPass1 now force c).state_open = c.state_open ∧
    (badnessPass1 now force c).is_canonical = c.is_canonical ∧
    (badnessPass1 now force c).timestamp_created = c.timestamp_created ∧
    (c.is_bad_for_new_circs = true → (badnessPass1 now force c).is_bad_for_new_circs = true) := by
  unfold badnessPass1
  split_ifs <;> simp_all

theorem badnessPass2_fields (n_canonical : Nat) (c : OrConn) :
    (badnessPass2 n_canonical c).marked_for_close = c.marked_for_close ∧
    (badnessPass2 n_canonical c).state_open = c.state_open ∧
    (badnessPass2 n_canonical c).is_canonical = c.is_canonical ∧
    (badnessPass2 n_canonical c).timestamp_created = c.timestamp_created ∧
    (c.is_bad_for_new_circs = true → (badnessPass2 n_canonical c).is_bad_for_new_circs = true) := by
  unfold badnessPass2
  split_ifs <;> simp_all

theorem badnessPass3_fields (now : Int) (best : OrConn) (c : OrConn) :
    (badnessPass3 now best c).marked_for_close = c.marked_for_close ∧
    (badnessPass3 now best c).state_open = c.state_open ∧
    (badnessPass3 now best c).is_canonical = c.is_canonical ∧
    (badnessPass3 now best c).timestamp_created = c.timestamp_created ∧
    (c.is_bad_for_new_circs = true → (badnessPass3 now best c).is_bad_for_new_circs = true) := by
  unfold badnessPass3
  split_ifs <;> simp_all

theorem badnessPass1_fresh (now : Int) (a : OrConn)
    (hm : a.marked_for_close = false) (hb : a.is_bad_for_new_circs = false)
    (ho : ¬ (a.timestamp_created + TIME_BEFORE_OR_CONN_IS_TOO_OLD < now)) :
    badnessPass1 now false a = a := by
  unfold badnessPass1
  split_ifs with h1 h2
  · rfl
  · simp only [Bool.false_eq_true, false_or] at h2
    exact absurd h2 ho
  · rfl

theorem badnessPass1_old (now : Int) (c : OrConn)
    (hm : c.marked_for_close = false)
    (ho : c.timestamp_created + TIME_BEFORE_OR_CONN_IS_TOO_OLD < now) :
    (badnessPass1 now false c).is_bad_for_new_circs = true := by
  unfold badnessPass1
  split_ifs <;> simp_all

theorem badnessPass2_marks (n_canonical : Nat) (c : OrConn)
    (hm : c.marked_for_close = false) (hb : c.is_bad_for_new_circs = false)
    (ho : c.state_open = true) (hn : n_canonical ≠ 0)
    (hc : c.is_canonical = false) :
    (badnessPass2 n_canonical c).is_bad_for_new_circs = true := by
  unfold badnessPass2
  split_ifs <;> simp_all

/-- C5 (amended): after `connection_or_group_set_badness` (no force) runs on
an identity's chain, if the chain contains an open canonical link that is
not marked for close, not already bad, and not older than 7 days, then
every link of the resulting chain that is open, non-canonical and not
marked for close has `is_bad_for_new_circs` set; and independently, every
resulting link that is not marked for close and is older than 7 days has
`is_bad_for_new_circs` set by the first pass. -/
theorem connection_or_group_set_badness_marks (now : Int) (chain : List OrConn)
    (hcanon : ∃ a ∈ chain, a.marked_for_close = false ∧
      a.is_bad_for_new_circs = false ∧ a.state_open = true ∧ a.is_canonical = true ∧
      ¬ (a.timestamp_created + TIME_BEFORE_OR_CONN_IS_TOO_OLD < now)) :
    (∀ c ∈ connection_or_group_set_badness now false chain,
      c.marked_for_close = false → c.state_open = true → c.is_canonical = false →
      c.is_bad_for_new_circs = true) ∧
    (∀ c ∈ connection_or_group_set_badness now false chain,
      c.marked_for_close = false →
      c.timestamp_created + TIME_BEFORE_OR_CONN_IS_TOO_OLD < now →
      c.is_bad_for_new_circs = true) := by
  have hn : badnessNCanonical now false chain ≠ 0 := by
    obtain ⟨a, hmem, hm, hb, ho, hc, hf⟩ := hcanon
    have ha1 : a ∈ badnessChain1 now false chain := by
      unfold badnessChain1
      exact List.mem_map.mpr ⟨a, hmem, badnessPass1_fresh now a hm hb hf⟩
    unfold badnessNCanonical
    rw [← Nat.pos_iff_ne_zero, List.countP_pos]
    exact ⟨a, ha1, by simp [hm, hb, ho, hc]⟩
  -- each output element is pass3? (pass2 (pass1 input)); reduce both goals
  -- to the single-element lemmas through the membership decomposition
  have main : ∀ c ∈ connection_or_group_set_badness now false chain,
      ∃ c1 ∈ badnessChain1 now false chain,
        (c.marked_for_close = c1.marked_for_close ∧
         c.state_open = c1.state_open ∧
         c.is_canonical = c1.is_canonical ∧
         c.timestamp_created = c1.timestamp_created) ∧
        ((badnessPass2 (badnessNCanonical now false chain) c1).is_bad_for_new_circs = true
          → c.is_bad_for_new_circs = true) := by
    intro c hc
    unfold connection_or_group_set_badness at hc
    rcases hbest : badnessBest now false chain with - | b <;> rw [hbest] at hc
    · obtain ⟨c1, hc1, hc1e⟩ := List.mem_map.mp hc
      obtain ⟨f1, f2, f3, f4, f5⟩ := badnessPass2_fields (badnessNCanonical now false chain) c1
      exact ⟨c1, hc1, by rw [← hc1e]; exact ⟨f1, f2, f3, f4⟩,
        fun hbad => by rw [← hc1e]; exact hbad⟩
    · obtain ⟨c2, hc2, hc2e⟩ := List.mem_map.mp hc
      obtain ⟨c1, hc1, hc1e⟩ := List.mem_map.mp hc2
      obtain ⟨f1, f2, f3, f4, f5⟩ := badnessPass2_fields (badnessNCanonical now false chain) c1
      obtain ⟨g1, g2, g3, g4, g5⟩ := badnessPass3_fields now b c2
      refine ⟨c1, hc1, ?_, ?_⟩
      · rw [← hc2e, g1, g2, g3, g4, ← hc1e]
        exact ⟨f1, f2, f3, f4⟩
      · intro hbad
        rw [← hc2e]
        exact g5 (by rw [← hc1e]; exact hbad)
  constructor
  · intro c hc hm ho hcanon2
    obtain ⟨c1, hc1, ⟨e1, e2, e3, e4⟩, himp⟩ := main c hc
    obtain ⟨f1, f2, f3, f4, f5⟩ := badnessPass2_fields (badnessNCanonical now false chain) c1
    by_cases hb1 : c1.is_bad_for_new_circs = true
    · exact himp (f5 hb1)
    · exact himp (badnessPass2_marks (badnessNCanonical now false chain) c1
        (e1 ▸ hm) (by simpa using hb1) (e2 ▸ ho) hn (e3 ▸ hcanon2))
  · intro c hc hm hold
    obtain ⟨c1, hc1, ⟨e1, e2, e3, e4⟩, himp⟩ := main c hc
    obtain ⟨f1, f2, f3, f4, f5⟩ := badnessPass2_fields (badnessNCanonical now false chain) c1
    -- pull c1 back to the original chain member it ages
    obtain ⟨c0, hc0, hc0e⟩ := List.mem_map.mp hc1
    obtain ⟨p1, p2, p3, p4, p5⟩ := badnessPass1_fields now false c0
    have hm0 : c0.marked_for_close = false := by rw [← p1, hc0e, ← e1]; exact hm
    have hold0 : c0.timestamp_created + TIME_BEFORE_OR_CONN_IS_TOO_OLD < now := by
      rw [← p4, hc0e, ← e4]; exact hold
    have hb1 : c1.is_bad_for_new_circs = true := by
      rw [← hc0e]
      exact badnessPass1_old now c0 hm0 hold0
    exact himp (f5 hb1)

/-- A fresh open canonical link, neither marked nor bad. -/
def connCanonW : OrConn :=
  { cid := 1, marked_for_close := false, is_connection_with_client := false,
    state_open := true, is_bad_for_new_circs := false, is_canonical := true,
    link_proto := 3, real_addr := 5, n_circuits := 0, timestamp_created := 0 }

/-- An open non-canonical link that is marked for close (and not bad). -/
def connMarkedW : OrConn :=
  { cid := 2, marked_for_close := true, is_connection_with_client := false,
    state_open := true, is_bad_for_new_circs := false, is_canonical := false,
    link_proto := 3, real_addr := 5, n_circuits := 0, timestamp_created := 0 }

/-- A fresh open non-canonical link, neither marked nor bad. -/
def connNoncanonW : OrConn :=
  { cid := 3, marked_for_close := false, is_connection_with_client := false,
    state_open := true, is_bad_for_new_circs := false, is_canonical := false,
    link_proto := 3, real_addr := 5, n_circuits := 0, timestamp_created := 0 }

/-- C5 counterexample: the chain holds an open canonical not-already-bad
link, yet the other open non-canonical link — being marked for close — is
left with `is_bad_for_new_circs` unset, contradicting the claim that every
other open non-canonical link in the chain becomes bad. -/
theorem group_set_badness_skips_marked :
    connection_or_group_set_badness 100 false [connCanonW, connMarkedW] =
      [connCanonW, connMarkedW] ∧
    connCanonW.state_open = true ∧ connCanonW.is_canonical = true ∧
    connCanonW.is_bad_for_new_circs = false ∧
    connMarkedW.state_open = true ∧ connMarkedW.is_canonical = false ∧
    connMarkedW.is_bad_for_new_circs = false := by
  refine ⟨?_, rfl, rfl, rfl, rfl, rfl, rfl⟩
  decide

/-- Witness for the amended C5 theorem: with a fresh canonical link present,
the unmarked open non-canonical chain member comes out bad. -/
theorem connection_or_group_set_badness_marks_witness :
    ((connection_or_group_set_badness 100 false
        [connCanonW, connNoncanonW]).getD 1 connCanonW).is_bad_for_new_circs = true := by
  have h := connection_or_group_set_badness_marks 100 [connCanonW, connNoncanonW]
    (by decide)
  exact h.1 _ (by decide) (by decide) (by decide) (by decide)

/-! ## Identity-keyed registry (connection_or.c:
    connection_or_remove_from_identity_map,
    connection_or_set_identity_digest, connection_or_clear_identity_map) -/

/-- The registry state.  Connections are referenced by id (`Nat`, standing
for the object's address); digests are coded as `Nat` with 0 playing the
role of the all-zero digest.  `idOf` is each connection's
`identity_digest` field; `chainOf d` is the `next_with_same_id` chain
hanging off the digest-map entry for `d` (`[]` when the map has no
entry). -/
structure RegState where
  idOf : Nat → Nat
  chainOf : Nat → List Nat

/-- `connection_or_remove_from_identity_map`: look up the chain under the
connection's own digest; if there is no entry, do nothing (the C only
logs); otherwise unlink the first occurrence of the connection (the map
head moves to its successor when the head is the connection), and zero
the connection's digest. -/
def connection_or_remove_from_identity_map (s : RegState) (c : Nat) : RegState :=
  match s.chainOf (s.idOf c) with
  | [] => s
  | hd :: tl =>
    { idOf := fun x => if x = c then 0 else s.idOf x
    , chainOf := fun d => if d = s.idOf c
        then (if hd = c then tl else hd :: tl.erase c) else s.chainOf d }

/-- The tail of `connection_or_set_identity_digest` after the detach step:
store the digest into the connection, and when it is nonzero push the
connection onto the head of its chain (`digestmap_set` returns the old
head, which becomes `next_with_same_id`). -/
def regInsertAfterDetach (s1 : RegState) (c digest : Nat) : RegState :=
  if digest = 0 then
    { idOf := fun x => if x = c then digest else s1.idOf x
    , chainOf := s1.chainOf }
  else
    { idOf := fun x => if x = c then digest else s1.idOf x
    , chainOf := fun d => if d = digest then c :: s1.chainOf digest else s1.chainOf d }

/-- `connection_or_set_identity_digest`: a no-op when the digest is
unchanged; otherwise detach the connection from its current chain (when
its digest was nonzero), then store the digest and insert. -/
def connection_or_set_identity_digest (s : RegState) (c digest : Nat) : RegState :=
  if s.idOf c = digest then s
  else regInsertAfterDetach
    (if s.idOf c ≠ 0 then connection_or_remove_from_identity_map s c else s) c digest

/-- `connection_or_clear_identity_map`: zero every digest and drop the map. -/
def connection_or_clear_identity_map : RegState :=
  { idOf := fun _ => 0, chainOf := fun _ => [] }

/-- The registry invariant: no chain hangs under the zero digest, every
chain member carries the digest that keys its chain, and no chain lists a
connection twice. -/
def RegInv (s : RegState) : Prop :=
  s.chainOf 0 = [] ∧
  (∀ d c, c ∈ s.chainOf d → s.idOf c = d) ∧
  (∀ d, (s.chainOf d).Nodup)

theorem regInv_unreachable (s : RegState) (h : RegInv s) (c : Nat)
    (hz : s.idOf c = 0) : ∀ d, c ∉ s.chainOf d := by
  intro d hmem
  have hd := h.2.1 d c hmem
  rw [hz] at hd
  rw [← hd, h.1] at hmem
  exact List.not_mem_nil c hmem

theorem remove_preserves_inv (s : RegState) (c : Nat) (h : RegInv s) :
    RegInv (connection_or_remove_from_identity_map s c) ∧
    (∀ d, c ∉ (connection_or_remove_from_identity_map s c).chainOf d) := by
  obtain ⟨h0, hmem, hnd⟩ := h
  rcases hch : s.chainOf (s.idOf c) with - | ⟨hd, tl⟩
  · have hid : connection_or_remove_from_identity_map s c = s := by
      unfold connection_or_remove_from_identity_map
      rw [hch]
    rw [hid]
    refine ⟨⟨h0, hmem, hnd⟩, ?_⟩
    intro d hdm
    have hxd := hmem d c hdm
    rw [← hxd, hch] at hdm
    exact List.not_mem_nil c hdm
  · have heq : connection_or_remove_from_identity_map s c =
        { idOf := fun x => if x = c then 0 else s.idOf x
        , chainOf := fun d => if d = s.idOf c
            then (if hd = c then tl else hd :: tl.erase c) else s.chainOf d } := by
      unfold connection_or_remove_from_identity_map
      rw [hch]
    rw [heq]
    have hnd' : (hd :: tl).Nodup := hch ▸ hnd (s.idOf c)
    have hhd : hd ∉ tl := (List.nodup_cons.mp hnd').1
    have htl : tl.Nodup := (List.nodup_cons.mp hnd').2
    have hdnz : s.idOf c ≠ 0 := by
      intro hz
      rw [hz, h0] at hch
      exact List.noConfusion hch
    have hcnot : c ∉ (if hd = c then tl else hd :: tl.erase c) := by
      split
      · rename_i hdc
        subst hdc
        exact hhd
      · rename_i hdc
        intro hmem'
        rcases List.mem_cons.mp hmem' with hcc | hmem2
        · exact hdc hcc.symm
        · exact (List.Nodup.not_mem_erase htl) hmem2
    have hsub : ∀ x, x ∈ (if hd = c then tl else hd :: tl.erase c) →
        x ∈ s.chainOf (s.idOf c) := by
      intro x hx
      rw [hch]
      revert hx
      split
      · exact fun hx => List.mem_cons_of_mem hd hx
      · intro hx
        rcases List.mem_cons.mp hx with hcc | hmem2
        · exact hcc ▸ List.mem_cons_self hd tl
        · exact List.mem_cons_of_mem hd (List.mem_of_mem_erase hmem2)
    refine ⟨⟨?_, ?_, ?_⟩, ?_⟩
    · simp only
      rw [if_neg (Ne.symm hdnz)]
      exact h0
    · intro d x hx
      simp only at hx ⊢
      have hxne : x ≠ c := by
        intro hxc
        subst hxc
        by_cases hdd : d = s.idOf x
        · rw [if_pos hdd] at hx
          exact hcnot hx
        · rw [if_neg hdd] at hx
          exact hdd (hmem d x hx).symm
      rw [if_neg hxne]
      by_cases hdd : d = s.idOf c
      · rw [if_pos hdd] at hx
        rw [hdd]
        exact hmem (s.idOf c) x (hsub x hx)
      · rw [if_neg hdd] at hx
        exact hmem d x hx
    · intro d
      simp only
      by_cases hdd : d = s.idOf c
      · rw [if_pos hdd]
        split
        · exact htl
        · exact List.nodup_cons.mpr
            ⟨fun hm => hhd (List.mem_of_mem_erase hm), List.Nodup.erase c htl⟩
      · rw [if_neg hdd]
        exact hnd d
    · intro d
      simp only
      by_cases hdd : d = s.idOf c
      · rw [if_pos hdd]
        exact hcnot
      · rw [if_neg hdd]
        intro hmem'
        exact hdd (hmem d c hmem').symm

theorem regInsertAfterDetach_inv (s1 : RegState) (c digest : Nat)
    (h : RegInv s1) (hnr : ∀ d, c ∉ s1.chainOf d) :
    RegInv (regInsertAfterDetach s1 c digest) := by
  obtain ⟨h0, hmem, hnd⟩ := h
  unfold regInsertAfterDetach
  split
  · rename_i hdz
    refine ⟨h0, ?_, hnd⟩
    intro d x hx
    simp only at hx ⊢
    have hxne : x ≠ c := fun hxc => hnr d (hxc ▸ hx)
    rw [if_neg hxne]
    exact hmem d x hx
  · rename_i hdz
    refine ⟨?_, ?_, ?_⟩
    · simp only
      rw [if_neg (Ne.symm hdz)]
      exact h0
    · intro d x hx
      simp only at hx ⊢
      by_cases hdd : d = digest
      · rw [if_pos hdd] at hx
        rcases List.mem_cons.mp hx with hcc | hmem2
        · subst hcc
          rw [if_pos rfl, hdd]
        · have hxne : x ≠ c := fun hxc => hnr digest (hxc ▸ hmem2)
          rw [if_neg hxne, hdd]
          exact hmem digest x hmem2
      · rw [if_neg hdd] at hx
        have hxne : x ≠ c := fun hxc => hnr d (hxc ▸ hx)
        rw [if_neg hxne]
        exact hmem d x hx
    · intro d
      simp only
      by_cases hdd : d = digest
      · rw [if_pos hdd]
        exact List.nodup_cons.mpr ⟨hnr digest, hnd digest⟩
      · rw [if_neg hdd]
        exact hnd d

theorem set_identity_preserves_inv (s : RegState) (c digest : Nat)
    (h : RegInv s) : RegInv (connection_or_set_identity_digest s c digest) := by
  unfold connection_or_set_identity_digest
  split
  · exact h
  · split
    · obtain ⟨hi, hnr⟩ := remove_preserves_inv s c h
      exact regInsertAfterDetach_inv _ c digest hi hnr
    · rename_i hne hz
      have hz' : s.idOf c = 0 := by
        by_contra hzz
        exact hz hzz
      exact regInsertAfterDetach_inv s c digest h (regInv_unreachable s h c hz')

/-- C4: the registry invariant — every stored link appears exactly once in
the chain under its own digest, every chain member carries the keying
digest, and zero-digest links are unreachable — is preserved by
`connection_or_set_identity_digest`,
`connection_or_remove_from_identity_map` and
`connection_or_clear_identity_map`; and under the invariant every
reachable link is counted exactly once in the chain under its own
digest. -/
theorem registry_ops_preserve_inv (s : RegState) (c digest : Nat)
    (h : RegInv s) :
    RegInv (connection_or_remove_from_identity_map s c) ∧
    RegInv (connection_or_set_identity_digest s c digest) ∧
    RegInv connection_or_clear_identity_map ∧
    (∀ d x, x ∈ s.chainOf d → (s.chainOf (s.idOf x)).count x = 1) := by
  refine ⟨(remove_preserves_inv s c h).1, set_identity_preserves_inv s c digest h,
    ⟨rfl, fun d x hx => absurd hx (List.not_mem_nil x),
     fun d => List.nodup_nil⟩, ?_⟩
  intro d x hx
  have hxd := h.2.1 d x hx
  rw [hxd]
  exact List.count_eq_one_of_mem (h.2.2 d) hx

/-- Witness for C4: the invariant after inserting connection 1 under digest
5 into the empty registry, established through the preservation theorem. -/
theorem registry_ops_preserve_inv_witness :
    RegInv (connection_or_set_identity_digest connection_or_clear_identity_map 1 5) :=
  (registry_ops_preserve_inv connection_or_clear_identity_map 1 5
    ⟨rfl, fun d x hx => absurd hx (List.not_mem_nil x),
     fun d => List.nodup_nil⟩).2.1

/-! ## Handshake transcript digests (connection_or.c:
    connection_init_or_handshake_state, or_handshake_state_record_cell,
    or_handshake_state_record_var_cell, connection_or_write_cell_to_buf,
    connection_or_write_var_cell_to_buf, connection_or_send_netinfo) -/

/-- `var_cell_t`: a 16-bit circuit id, an 8-bit command and a
length-prefixed payload (`payload_len` is the payload's length). -/
structure VarCell where
  circ_id : Nat
  command : Nat
  payload : List Nat
deriving DecidableEq

/-- `var_cell_pack_header`: circ_id big-endian, command byte, payload_len
big-endian — `VAR_CELL_HEADER_SIZE = 5` bytes. -/
def var_cell_pack_header (v : VarCell) : List Nat :=
  [v.circ_id % 65536 / 256, v.circ_id % 256, v.command % 256,
   v.payload.length % 65536 / 256, v.payload.length % 256]

/-- The full wire image of a variable-length cell: header then payload. -/
def varCellWire (v : VarCell) : List Nat := var_cell_pack_header v ++ v.payload

/-- `or_handshake_state_t`, digest part: the running hashes are modelled by
the byte streams fed to them (the SHA-256 itself is the crypto
collaborator), plus the two gating flags. -/
structure OrHandshakeState where
  digest_sent : List Nat
  digest_received : List Nat
  digest_sent_data : Bool
  digest_received_data : Bool
deriving DecidableEq

/-- `connection_init_or_handshake_state`: zeroed digests, both gating flags
set. -/
def connection_init_or_handshake_state : OrHandshakeState :=
  { digest_sent := [], digest_received := [], digest_sent_data := true,
    digest_received_data := true }

/-- `or_handshake_state_record_cell`: if the direction's gating flag is
clear, do nothing; else absorb the packed cell (all
`sizeof(packed_cell_t.body)` bytes) into that direction's digest. -/
def or_handshake_state_record_cell (st : OrHandshakeState) (c : Cell)
    (incoming : Bool) : OrHandshakeState :=
  if incoming then
    if st.digest_received_data
    then { st with digest_received := st.digest_received ++ cell_pack c }
    else st
  else
    if st.digest_sent_data
    then { st with digest_sent := st.digest_sent ++ cell_pack c }
    else st

/-- `or_handshake_state_record_var_cell`: same gating; absorb the 5-byte
header then the payload. -/
def or_handshake_state_record_var_cell (st : OrHandshakeState) (v : VarCell)
    (incoming : Bool) : OrHandshakeState :=
  if incoming then
    if st.digest_received_data
    then { st with digest_received := st.digest_received ++ varCellWire v }
    else st
  else
    if st.digest_sent_data
    then { st with digest_sent := st.digest_sent ++ varCellWire v }
    else st

/-- The slice of an OR connection the v3-handshake cell paths touch: the
state flag for `OR_CONN_STATE_OR_HANDSHAKING_V3`, the handshake state and
the outgoing buffer. -/
structure HsConn where
  state_v3_handshaking : Bool
  hs : OrHandshakeState
  outbuf : List Nat
deriving DecidableEq

/-- `connection_or_write_cell_to_buf`: pack the cell onto the outbuf, and in
v3-handshaking state record it as sent. -/
def connection_or_write_cell_to_buf (conn : HsConn) (c : Cell) : HsConn :=
  let conn1 := { conn with outbuf := conn.outbuf ++ cell_pack c }
  if conn1.state_v3_handshaking
  then { conn1 with hs := or_handshake_state_record_cell conn1.hs c false }
  else conn1

/-- `connection_or_write_var_cell_to_buf`: header and payload onto the
outbuf; record as sent in v3-handshaking state. -/
def connection_or_write_var_cell_to_buf (conn : HsConn) (v : VarCell) : HsConn :=
  let conn1 := { conn with outbuf := conn.outbuf ++ varCellWire v }
  if conn1.state_v3_handshaking
  then { conn1 with hs := or_handshake_state_record_var_cell conn1.hs v false }
  else conn1

/-- `connection_or_send_netinfo`, digest-relevant part: clear
`digest_sent_data` and then write the NETINFO cell (so the cell itself is
no longer recorded).  The cell's contents (timestamp, addresses) are
supplied by the caller's collaborators. -/
def connection_or_send_netinfo (conn : HsConn) (netinfo : Cell) : HsConn :=
  connection_or_write_cell_to_buf
    { conn with hs := { conn.hs with digest_sent_data := false } } netinfo

/-- Modelled from the spec: the command dispatcher (command.c) is not among
the sources; per the spec, every handshake cell received during the v3
handshake is recorded into `digest_received` (through
`or_handshake_state_record_cell` with `incoming` set) until authentication
stops the digests. -/
def connection_or_process_received_cell (conn : HsConn) (c : Cell) : HsConn :=
  if conn.state_v3_handshaking
  then { conn with hs := or_handshake_state_record_cell conn.hs c true }
  else conn

/-- Modelled from the spec: variable-length analogue of the received-cell
dispatch recording. -/
def connection_or_process_received_var_cell (conn : HsConn) (v : VarCell) : HsConn :=
  if conn.state_v3_handshaking
  then { conn with hs := or_handshake_state_record_var_cell conn.hs v true }
  else conn

/-- One observable cell event of the v3 handshake, from the side that later
assembles the AUTHENTICATE body. -/
inductive HsEvent
  | sendCell (c : Cell)
  | sendVarCell (v : VarCell)
  | sendNetinfo (c : Cell)
  | recvCell (c : Cell)
  | recvVarCell (v : VarCell)
deriving DecidableEq

/-- Dispatch one handshake event to the corresponding source path. -/
def hsStep (conn : HsConn) (e : HsEvent) : HsConn :=
  match e with
  | .sendCell c => connection_or_write_cell_to_buf conn c
  | .sendVarCell v => connection_or_write_var_cell_to_buf conn v
  | .sendNetinfo c => connection_or_send_netinfo conn c
  | .recvCell c => connection_or_process_received_cell conn c
  | .recvVarCell v => connection_or_process_received_var_cell conn v

/-- Run a sequence of handshake events. -/
def hsRun (conn : HsConn) (es : List HsEvent) : HsConn := es.foldl hsStep conn

/-- The connection at the start of the v3 handshake. -/
def hsInitConn : HsConn :=
  { state_v3_handshaking := true, hs := connection_init_or_handshake_state,
    outbuf := [] }

/-- The on-wire bytes an event contributes in the sent direction. -/
def sentWire : HsEvent → List Nat
  | .sendCell c => cell_pack c
  | .sendVarCell v => varCellWire v
  | .sendNetinfo c => cell_pack c
  | .recvCell _ => []
  | .recvVarCell _ => []

/-- The on-wire bytes an event contributes in the received direction. -/
def recvWire : HsEvent → List Nat
  | .recvCell c => cell_pack c
  | .recvVarCell v => varCellWire v
  | _ => []

/-- Whether an event is the NETINFO send. -/
def isSendNetinfo : HsEvent → Bool
  | .sendNetinfo _ => true
  | _ => false

theorem hsStep_no_netinfo (conn : HsConn) (e : HsEvent)
    (hst : conn.state_v3_handshaking = true)
    (hs1 : conn.hs.digest_sent_data = true)
    (hr1 : conn.hs.digest_received_data = true)
    (hne : isSendNetinfo e = false) :
    (hsStep conn e).hs.digest_sent = conn.hs.digest_sent ++ sentWire e ∧
    (hsStep conn e).hs.digest_received = conn.hs.digest_received ++ recvWire e ∧
    (hsStep conn e).hs.digest_sent_data = true ∧
    (hsStep conn e).hs.digest_received_data = true ∧
    (hsStep conn e).state_v3_handshaking = true := by
  rcases e with c | v | c | c | v
  · refine ⟨?_, ?_, ?_, ?_, ?_⟩ <;>
      simp [hsStep, connection_or_write_cell_to_buf,
        or_handshake_state_record_cell, hst, hs1, hr1, sentWire, recvWire]
  · refine ⟨?_, ?_, ?_, ?_, ?_⟩ <;>
      simp [hsStep, connection_or_write_var_cell_to_buf,
        or_handshake_state_record_var_cell, hst, hs1, hr1, sentWire, recvWire]
  · exact absurd hne (by simp [isSendNetinfo])
  · refine ⟨?_, ?_, ?_, ?_, ?_⟩ <;>
      simp [hsStep, connection_or_process_received_cell,
        or_handshake_state_record_cell, hst, hs1, hr1, sentWire, recvWire]
  · refine ⟨?_, ?_, ?_, ?_, ?_⟩ <;>
      simp [hsStep, connection_or_process_received_var_cell,
        or_handshake_state_record_var_cell, hst, hs1, hr1, sentWire, recvWire]

theorem hsRun_no_netinfo (es : List HsEvent) (conn : HsConn)
    (hst : conn.state_v3_handshaking = true)
    (hs1 : conn.hs.digest_sent_data = true)
    (hr1 : conn.hs.digest_received_data = true)
    (hnon : ∀ e ∈ es, isSendNetinfo e = false) :
    (hsRun conn es).hs.digest_sent =
      conn.hs.digest_sent ++ (es.map sentWire).join ∧
    (hsRun conn es).hs.digest_received =
      conn.hs.digest_received ++ (es.map recvWire).join ∧
    (hsRun conn es).hs.digest_sent_data = true ∧
    (hsRun conn es).hs.digest_received_data = true ∧
    (hsRun conn es).state_v3_handshaking = true := by
  induction es generalizing conn with
  | nil => simp [hsRun, hst, hs1, hr1]
  | cons e es ih =>
    obtain ⟨p1, p2, p3, p4, p5⟩ := hsStep_no_netinfo conn e hst hs1 hr1
      (hnon e (List.mem_cons_self e es))
    have hnon' : ∀ x ∈ es, isSendNetinfo x = false :=
      fun x hx => hnon x (List.mem_cons_of_mem e hx)
    obtain ⟨q1, q2, q3, q4, q5⟩ := ih (hsStep conn e) p5 p3 p4 hnon'
    have hrun : hsRun conn (e :: es) = hsRun (hsStep conn e) es := rfl
    rw [hrun]
    refine ⟨?_, ?_, q3, q4, q5⟩
    · rw [q1, p1]
      simp [List.join]
    · rw [q2, p2]
      simp [List.join]

theorem hsRun_sent_frozen (es : List HsEvent) (conn : HsConn)
    (hs0 : conn.hs.digest_sent_data = false) :
    (hsRun conn es).hs.digest_sent = conn.hs.digest_sent ∧
    (hsRun conn es).hs.digest_sent_data = false := by
  induction es generalizing conn with
  | nil => exact ⟨rfl, hs0⟩
  | cons e es ih =>
    have hstep : (hsStep conn e).hs.digest_sent = conn.hs.digest_sent ∧
        (hsStep conn e).hs.digest_sent_data = false := by
      rcases e with c | v | c | c | v <;>
        (constructor <;>
          (simp only [hsStep, connection_or_write_cell_to_buf,
            connection_or_write_var_cell_to_buf, connection_or_send_netinfo,
            connection_or_process_received_cell,
            connection_or_process_received_var_cell,
            or_handshake_state_record_cell, or_handshake_state_record_var_cell]
           <;> split_ifs <;> simp_all))
    obtain ⟨q1, q2⟩ := ih (hsStep conn e) hstep.2
    exact ⟨q1.trans hstep.1, q2⟩

/-- C6: in a scripted v3 handshake, the transcript digests read when the
AUTHENTICATE body is assembled (that is, after any netinfo-free event
prefix `pre`) cover exactly the on-wire bytes of every handshake cell
sent, respectively received, in `pre` — i.e. everything from the first
VERSIONS up to but not including the AUTHENTICATE — with both gating
flags still set; accumulating happens only through the gated record
functions; and once `connection_or_send_netinfo` runs, the sent-direction
flag is cleared and `digest_sent` absorbs neither the NETINFO cell nor
anything after it. -/
theorem or_handshake_transcript_digests (pre post : List HsEvent) (n : Cell)
    (hpre : ∀ e ∈ pre, isSendNetinfo e = false) :
    (hsRun hsInitConn pre).hs.digest_sent = (pre.map sentWire).join ∧
    (hsRun hsInitConn pre).hs.digest_received = (pre.map recvWire).join ∧
    (hsRun hsInitConn pre).hs.digest_sent_data = true ∧
    (hsRun hsInitConn pre).hs.digest_received_data = true ∧
    (hsRun hsInitConn (pre ++ HsEvent.sendNetinfo n :: post)).hs.digest_sent =
      (pre.map sentWire).join ∧
    (hsRun hsInitConn (pre ++ HsEvent.sendNetinfo n :: post)).hs.digest_sent_data =
      false := by
  obtain ⟨a1, a2, a3, a4, a5⟩ := hsRun_no_netinfo pre hsInitConn rfl rfl rfl hpre
  have a1' : (hsRun hsInitConn pre).hs.digest_sent = (pre.map sentWire).join := by
    simpa [hsInitConn, connection_init_or_handshake_state] using a1
  have a2' : (hsRun hsInitConn pre).hs.digest_received = (pre.map recvWire).join := by
    simpa [hsInitConn, connection_init_or_handshake_state] using a2
  have hsplit : hsRun hsInitConn (pre ++ HsEvent.sendNetinfo n :: post) =
      hsRun (hsStep (hsRun hsInitConn pre) (HsEvent.sendNetinfo n)) post := by
    unfold hsRun
    rw [List.foldl_append]
    rfl
  have hnet : (hsStep (hsRun hsInitConn pre) (HsEvent.sendNetinfo n)).hs.digest_sent =
      (hsRun hsInitConn pre).hs.digest_sent ∧
      (hsStep (hsRun hsInitConn pre) (HsEvent.sendNetinfo n)).hs.digest_sent_data =
        false := by
    constructor <;>
      simp [hsStep, connection_or_send_netinfo, connection_or_write_cell_to_buf,
        or_handshake_state_record_cell, a5]
  obtain ⟨f1, f2⟩ := hsRun_sent_frozen post _ hnet.2
  rw [hsplit]
  exact ⟨a1', a2', a3, a4, f1.trans (hnet.1.trans a1'), f2⟩

/-- Concrete handshake prefix for the C6 witness: our VERSIONS cell then
the peer's VERSIONS and CERTS. -/
def hsPreW : List HsEvent :=
  [HsEvent.sendVarCell ⟨0, 7, [0, 3]⟩,
   HsEvent.recvVarCell ⟨0, 7, [0, 3]⟩,
   HsEvent.recvVarCell ⟨0, 129, [1, 2, 3]⟩]

/-- Witness for C6 on the concrete prefix: the digest snapshots equal the
concatenated wire bytes, and after NETINFO the sent digest is frozen. -/
theorem or_handshake_transcript_digests_witness :
    (hsRun hsInitConn hsPreW).hs.digest_sent = (hsPreW.map sentWire).join ∧
    (hsRun hsInitConn
        (hsPreW ++ HsEvent.sendNetinfo ⟨0, 8, [9]⟩ ::
          [HsEvent.sendCell ⟨0, 0, [1]⟩])).hs.digest_sent =
      (hsPreW.map sentWire).join := by
  have h := or_handshake_transcript_digests hsPreW [HsEvent.sendCell ⟨0, 0, [1]⟩]
    ⟨0, 8, [9]⟩ (by decide)
  exact ⟨h.1, h.2.2.2.2.1⟩

/-! ## Bandwidth pause/resume (connection.c:
    connection_consider_empty_read_buckets,
    connection_consider_empty_write_buckets,
    connection_bucket_should_increase, connection_bucket_refill) -/

/-- The fields of `connection_t`/`or_connection_t` the bucket logic reads:
`speaks_cells` is `connection_speaks_cells` (OR type), `counts_as_relayed`
the time-dependent result of `connection_counts_as_relayed_traffic`,
`reading`/`writing` the libevent read/write-readiness interest. -/
structure RlConn where
  marked_for_close : Bool
  speaks_cells : Bool
  state_open : Bool
  counts_as_relayed : Bool
  read_bucket : Int
  write_bucket : Int
  bandwidthrate : Int
  bandwidthburst : Int
  read_blocked_on_bw : Bool
  write_blocked_on_bw : Bool
  reading : Bool
  writing : Bool
deriving DecidableEq

/-- The four global byte buckets. -/
structure BwGlobals where
  global_read_bucket : Int
  global_write_bucket : Int
  global_relayed_read_bucket : Int
  global_relayed_write_bucket : Int
deriving DecidableEq

/-- The guard of `connection_consider_empty_read_buckets`: some applicable
read bucket is exhausted. -/
def readBucketsEmpty (g : BwGlobals) (c : RlConn) : Prop :=
  g.global_read_bucket ≤ 0 ∨
  (c.counts_as_relayed = true ∧ g.global_relayed_read_bucket ≤ 0) ∨
  (c.speaks_cells = true ∧ c.state_open = true ∧ c.read_bucket ≤ 0)

instance (g : BwGlobals) (c : RlConn) : Decidable (readBucketsEmpty g c) := by
  unfold readBucketsEmpty; infer_instance

/-- The guard of `connection_consider_empty_write_buckets`. -/
def writeBucketsEmpty (g : BwGlobals) (c : RlConn) : Prop :=
  g.global_write_bucket ≤ 0 ∨
  (c.counts_as_relayed = true ∧ g.global_relayed_write_bucket ≤ 0) ∨
  (c.speaks_cells = true ∧ c.state_open = true ∧ c.write_bucket ≤ 0)

instance (g : BwGlobals) (c : RlConn) : Decidable (writeBucketsEmpty g c) := by
  unfold writeBucketsEmpty; infer_instance

/-- `connection_consider_empty_read_buckets`: when an applicable bucket is
exhausted, set `read_blocked_on_bw` and stop reading; otherwise do
nothing. -/
def connection_consider_empty_read_buckets (g : BwGlobals) (c : RlConn) : RlConn :=
  if readBucketsEmpty g c
  then { c with read_blocked_on_bw := true, reading := false }
  else c

/-- `connection_consider_empty_write_buckets`. -/
def connection_consider_empty_write_buckets (g : BwGlobals) (c : RlConn) : RlConn :=
  if writeBucketsEmpty g c
  then { c with write_blocked_on_bw := true, writing := false }
  else c

/-- `connection_bucket_should_increase`: only open OR connections play the
per-connection rate-limiting game, and only below-burst buckets grow. -/
def connection_bucket_should_increase (bucket : Int) (c : RlConn) : Bool :=
  if ¬ c.state_open then false
  else if c.bandwidthburst ≤ bucket then false
  else true

/-- The per-connection bucket refill of the `connection_bucket_refill`
loop body. -/
def connection_bucket_refill_conn (milliseconds_elapsed : Int) (c : RlConn) : RlConn :=
  if c.speaks_cells then
    let c1 := if connection_bucket_should_increase c.read_bucket c
      then { c with read_bucket := (connection_bucket_refill_helper c.read_bucket
              c.bandwidthrate c.bandwidthburst milliseconds_elapsed) }
      else c
    if connection_bucket_should_increase c1.write_bucket c1
    then { c1 with write_bucket := (connection_bucket_refill_helper c1.write_bucket
            c1.bandwidthrate c1.bandwidthburst milliseconds_elapsed) }
    else c1
  else c

/-- The wake-up checks of the `connection_bucket_refill` loop body, run
against the already-refilled global buckets. -/
def connection_bucket_refill_wake (g : BwGlobals) (c : RlConn) : RlConn :=
  let c1 := if c.read_blocked_on_bw = true ∧ 0 < g.global_read_bucket ∧
      (c.counts_as_relayed = false ∨ 0 < g.global_relayed_read_bucket) ∧
      (c.speaks_cells = false ∨ c.state_open = false ∨ 0 < c.read_bucket)
    then { c with read_blocked_on_bw := false, reading := true }
    else c
  if c1.write_blocked_on_bw = true ∧ 0 < g.global_write_bucket ∧
      (c1.counts_as_relayed = false ∨ 0 < g.global_relayed_write_bucket) ∧
      (c1.speaks_cells = false ∨ c1.state_open = false ∨ 0 < c1.write_bucket)
  then { c1 with write_blocked_on_bw := false, writing := true }
  else c1

/-- One connection's share of `connection_bucket_refill`: refill the
per-connection buckets, then wake blocked directions whose applicable
buckets are all positive. -/
def connection_bucket_refill_step (g : BwGlobals) (milliseconds_elapsed : Int)
    (c : RlConn) : RlConn :=
  connection_bucket_refill_wake g (connection_bucket_refill_conn milliseconds_elapsed c)

/-- The global part of `connection_bucket_refill`, then the per-connection
loop over all connections against the refilled globals. -/
def connection_bucket_refill (g : BwGlobals)
    (bandwidthrate bandwidthburst relayrate relayburst milliseconds_elapsed : Int)
    (conns : List RlConn) : BwGlobals × List RlConn :=
  let g1 : BwGlobals :=
    { global_read_bucket := connection_bucket_refill_helper g.global_read_bucket
        bandwidthrate bandwidthburst milliseconds_elapsed,
      global_write_bucket := connection_bucket_refill_helper g.global_write_bucket
        bandwidthrate bandwidthburst milliseconds_elapsed,
      global_relayed_read_bucket := connection_bucket_refill_helper
        g.global_relayed_read_bucket relayrate relayburst milliseconds_elapsed,
      global_relayed_write_bucket := connection_bucket_refill_helper
        g.global_relayed_write_bucket relayrate relayburst milliseconds_elapsed }
  (g1, conns.map (connection_bucket_refill_step g1 milliseconds_elapsed))

theorem refill_conn_frame (milliseconds_elapsed : Int) (c : RlConn) :
    (connection_bucket_refill_conn milliseconds_elapsed c).marked_for_close =
      c.marked_for_close ∧
    (connection_bucket_refill_conn milliseconds_elapsed c).speaks_cells =
      c.speaks_cells ∧
    (connection_bucket_refill_conn milliseconds_elapsed c).state_open = c.state_open ∧
    (connection_bucket_refill_conn milliseconds_elapsed c).counts_as_relayed =
      c.counts_as_relayed ∧
    (connection_bucket_refill_conn milliseconds_elapsed c).read_blocked_on_bw =
      c.read_blocked_on_bw ∧
    (connection_bucket_refill_conn milliseconds_elapsed c).write_blocked_on_bw =
      c.write_blocked_on_bw ∧
    (connection_bucket_refill_conn milliseconds_elapsed c).reading = c.reading ∧
    (connection_bucket_refill_conn milliseconds_elapsed c).writing = c.writing := by
  simp only [connection_bucket_refill_conn]
  split_ifs <;> simp

theorem refill_wake_marked (g : BwGlobals) (c : RlConn) :
    (connection_bucket_refill_wake g c).marked_for_close = c.marked_for_close := by
  simp only [connection_bucket_refill_wake]
  split <;> (split <;> simp)

theorem refill_wake_read (g : BwGlobals) (c : RlConn)
    (h1 : c.read_blocked_on_bw = true) (h2 : 0 < g.global_read_bucket)
    (h3 : c.counts_as_relayed = true → 0 < g.global_relayed_read_bucket)
    (h4 : c.speaks_cells = true → c.state_open = true → 0 < c.read_bucket) :
    (connection_bucket_refill_wake g c).read_blocked_on_bw = false ∧
    (connection_bucket_refill_wake g c).reading = true := by
  have hc3 : c.counts_as_relayed = false ∨ 0 < g.global_relayed_read_bucket := by
    rcases hb : c.counts_as_relayed
    · exact Or.inl rfl
    · exact Or.inr (h3 hb)
  have hc4 : c.speaks_cells = false ∨ c.state_open = false ∨ 0 < c.read_bucket := by
    rcases hb : c.speaks_cells
    · exact Or.inl rfl
    · rcases hb2 : c.state_open
      · exact Or.inr (Or.inl rfl)
      · exact Or.inr (Or.inr (h4 hb hb2))
  have hcond : c.read_blocked_on_bw = true ∧ 0 < g.global_read_bucket ∧
      (c.counts_as_relayed = false ∨ 0 < g.global_relayed_read_bucket) ∧
      (c.speaks_cells = false ∨ c.state_open = false ∨ 0 < c.read_bucket) :=
    ⟨h1, h2, hc3, hc4⟩
  simp only [connection_bucket_refill_wake, if_pos hcond]
  split <;> simp

theorem refill_wake_write (g : BwGlobals) (c : RlConn)
    (h1 : c.write_blocked_on_bw = true) (h2 : 0 < g.global_write_bucket)
    (h3 : c.counts_as_relayed = true → 0 < g.global_relayed_write_bucket)
    (h4 : c.speaks_cells = true → c.state_open = true → 0 < c.write_bucket) :
    (connection_bucket_refill_wake g c).write_blocked_on_bw = false ∧
    (connection_bucket_refill_wake g c).writing = true := by
  have hc3 : c.counts_as_relayed = false ∨ 0 < g.global_relayed_write_bucket := by
    rcases hb : c.counts_as_relayed
    · exact Or.inl rfl
    · exact Or.inr (h3 hb)
  have hc4 : c.speaks_cells = false ∨ c.state_open = false ∨ 0 < c.write_bucket := by
    rcases hb : c.speaks_cells
    · exact Or.inl rfl
    · rcases hb2 : c.state_open
      · exact Or.inr (Or.inl rfl)
      · exact Or.inr (Or.inr (h4 hb hb2))
  simp only [connection_bucket_refill_wake]
  split
  · rw [if_pos (⟨h1, h2, hc3, hc4⟩ :
      ({ c with read_blocked_on_bw := false, reading := true } :
        RlConn).write_blocked_on_bw = true ∧ 0 < g.global_write_bucket ∧ _ ∧ _)]
    simp
  · rw [if_pos (⟨h1, h2, hc3, hc4⟩ : c.write_blocked_on_bw = true ∧
      0 < g.global_write_bucket ∧ _ ∧ _)]
    simp

/-- C9: bucket exhaustion never closes a connection.  When an applicable
read (write) bucket is at or below zero, the consider-empty path only sets
`read_blocked_on_bw` (`write_blocked_on_bw`) and stops the readiness
interest, and otherwise does nothing; neither it nor the refill pass ever
touches `marked_for_close`.  And after a refill leaves every applicable
bucket positive, a blocked direction is unblocked and its readiness
restarted. -/
theorem connection_bucket_pause_resume (g : BwGlobals)
    (milliseconds_elapsed : Int) (c : RlConn) :
    (connection_consider_empty_read_buckets g c).marked_for_close =
      c.marked_for_close ∧
    (connection_consider_empty_write_buckets g c).marked_for_close =
      c.marked_for_close ∧
    (readBucketsEmpty g c → connection_consider_empty_read_buckets g c =
      { c with read_blocked_on_bw := true, reading := false }) ∧
    (¬ readBucketsEmpty g c → connection_consider_empty_read_buckets g c = c) ∧
    (writeBucketsEmpty g c → connection_consider_empty_write_buckets g c =
      { c with write_blocked_on_bw := true, writing := false }) ∧
    (¬ writeBucketsEmpty g c → connection_consider_empty_write_buckets g c = c) ∧
    (connection_bucket_refill_step g milliseconds_elapsed c).marked_for_close =
      c.marked_for_close ∧
    (∀ bandwidthrate bandwidthburst relayrate relayburst
        (conns : List RlConn),
      ((connection_bucket_refill g bandwidthrate bandwidthburst relayrate
          relayburst milliseconds_elapsed conns).2.map
        (fun x => x.marked_for_close)) =
      conns.map (fun x => x.marked_for_close)) ∧
    (c.read_blocked_on_bw = true → 0 < g.global_read_bucket →
      (c.counts_as_relayed = true → 0 < g.global_relayed_read_bucket) →
      (c.speaks_cells = true → c.state_open = true →
        0 < (connection_bucket_refill_conn milliseconds_elapsed c).read_bucket) →
      (connection_bucket_refill_step g milliseconds_elapsed c).read_blocked_on_bw =
        false ∧
      (connection_bucket_refill_step g milliseconds_elapsed c).reading = true) ∧
    (c.write_blocked_on_bw = true → 0 < g.global_write_bucket →
      (c.counts_as_relayed = true → 0 < g.global_relayed_write_bucket) →
      (c.speaks_cells = true → c.state_open = true →
        0 < (connection_bucket_refill_conn milliseconds_elapsed c).write_bucket) →
      (connection_bucket_refill_step g milliseconds_elapsed c).write_blocked_on_bw =
        false ∧
      (connection_bucket_refill_step g milliseconds_elapsed c).writing = true) := by
  obtain ⟨f1, f2, f3, f4, f5, f6, f7, f8⟩ := refill_conn_frame milliseconds_elapsed c
  refine ⟨?_, ?_, ?_, ?_, ?_, ?_, ?_, ?_, ?_, ?_⟩
  · unfold connection_consider_empty_read_buckets
    split <;> simp
  · unfold connection_consider_empty_write_buckets
    split <;> simp
  · intro h
    simp [connection_consider_empty_read_buckets, if_pos h]
  · intro h
    simp [connection_consider_empty_read_buckets, if_neg h]
  · intro h
    simp [connection_consider_empty_write_buckets, if_pos h]
  · intro h
    simp [connection_consider_empty_write_buckets, if_neg h]
  · unfold connection_bucket_refill_step
    rw [refill_wake_marked, f1]
  · intro bandwidthrate bandwidthburst relayrate relayburst conns
    simp only [connection_bucket_refill, List.map_map]
    induction conns with
    | nil => rfl
    | cons x xs ih =>
      simp only [List.map_cons, Function.comp_apply, ih]
      congr 1
      unfold connection_bucket_refill_step
      rw [refill_wake_marked]
      exact (refill_conn_frame milliseconds_elapsed x).1
  · intro h1 h2 h3 h4
    unfold connection_bucket_refill_step
    exact refill_wake_read g (connection_bucket_refill_conn milliseconds_elapsed c)
      (f5.trans h1) h2 (fun hx => h3 (f4 ▸ hx))
      (fun hs ho => h4 (f2 ▸ hs) (f3 ▸ ho))
  · intro h1 h2 h3 h4
    unfold connection_bucket_refill_step
    exact refill_wake_write g (connection_bucket_refill_conn milliseconds_elapsed c)
      (f6.trans h1) h2 (fun hx => h3 (f4 ▸ hx))
      (fun hs ho => h4 (f2 ▸ hs) (f3 ▸ ho))

/-- Witness for C9: a blocked open OR connection with all buckets positive
after the refill resumes reading; instantiated through the theorem. -/
theorem connection_bucket_pause_resume_witness :
    (connection_bucket_refill_step ⟨10, 10, 10, 10⟩ 100
      { marked_for_close := false, speaks_cells := true, state_open := true,
        counts_as_relayed := true, read_bucket := 0, write_bucket := 5,
        bandwidthrate := 10, bandwidthburst := 20, read_blocked_on_bw := true,
        write_blocked_on_bw := false, reading := false, writing := true
        : RlConn }).read_blocked_on_bw = false := by
  have h := connection_bucket_pause_resume ⟨10, 10, 10, 10⟩ 100
    { marked_for_close := false, speaks_cells := true, state_open := true,
      counts_as_relayed := true, read_bucket := 0, write_bucket := 5,
      bandwidthrate := 10, bandwidthburst := 20, read_blocked_on_bw := true,
      write_blocked_on_bw := false, reading := false, writing := true }
  exact (h.2.2.2.2.2.2.2.2.1 rfl (by norm_num) (fun _ => by norm_num)
    (fun _ _ => by decide)).1
